import Mathlib

/-!
Shallow embedding of the Ecosystem simulator (Powerchu/Ecosystem,
`Ecosystem_Project` sources) in Lean 4, for checking the repository's
specification claims.

Modelling conventions:
* C++ `float` arithmetic is embedded as exact rational arithmetic (`ℚ`).
  Every concrete scenario below is chosen so that strict inequalities hold
  with slack far larger than single-precision rounding error.
* The per-cell layers (`mGrassLayer`, `mFertilizerLayer`, ...) are total
  functions `ℕ → ℕ → _` together with explicit `w`/`h` bounds; an
  out-of-bounds `std::vector` access is modelled as an `Except`-error
  where a claim is about bounds behaviour.
* Calls to `std::random_device`-seeded shuffles are modelled by explicit
  order parameters (the possible outcomes of the shuffle); theorems either
  hold for every order or instantiate a concrete attainable order.
-/

namespace Ecosystem

/-- C++ helper `Clamp` from Terrain.cpp / Creature.cpp:
`val > max ? max : val < min ? min : val`. -/
def Clamp (lo hi v : ℚ) : ℚ :=
  if v > hi then hi else if v < lo then lo else v

/-- C++ helper `Min`. -/
def MinQ (a b : ℚ) : ℚ := if a < b then a else b

/-- C++ helper `Max`. -/
def MaxQ (a b : ℚ) : ℚ := if a > b then a else b

/-- The float constant `SQRT_2 1.41421356237f` from Terrain.cpp, as the
decimal literal written in the source. -/
def sqrt2C : ℚ := 141421356237 / 100000000000

/-- `GetOctileCost(x, y) = Max(x,y) + (SQRT_2 - 1) * Min(x,y)`. -/
def GetOctileCost (x y : ℚ) : ℚ := MaxQ x y + (sqrt2C - 1) * MinQ x y

/-- Grid position (`Ecosystem::GridPos`). -/
structure GridPos where
  x : ℤ
  y : ℤ
  deriving DecidableEq, Repr

/-- The terrain state (`Ecosystem::Terrain`): per-cell layers addressed as
`layer y x` like the row-major `std::vector` of rows in the source, plus the
grid extent.  Threshold pairs `std::pair<float,float>` are split into
explicit `first`/`second` fields. -/
structure Terrain where
  w : ℕ
  h : ℕ
  space : ℕ → ℕ → ℤ
  grass : ℕ → ℕ → ℚ
  fert : ℕ → ℕ → ℚ
  grassRate : ℕ → ℕ → ℚ
  fertRate : ℕ → ℕ → ℚ
  grassMin : ℕ → ℕ → ℚ   -- mGrassThresh[y][x].first
  grassMax : ℕ → ℕ → ℚ   -- mGrassThresh[y][x].second
  fertMin : ℕ → ℕ → ℚ    -- mFertilizerThresh[y][x].first
  fertMax : ℕ → ℕ → ℚ    -- mFertilizerThresh[y][x].second

/-- Point update of a row-major layer. -/
def upd2 {α : Type} (f : ℕ → ℕ → α) (X Y : ℕ) (v : α) : ℕ → ℕ → α :=
  fun y x => if y = Y ∧ x = X then v else f y x

/-- `Terrain::ConsumeGrass(_x, _y, _val)`.  The source guard is
`if (_x > mnWidth || _y > mnHeight) return 0;` (note `>` rather than `>=`);
the subsequent unchecked `std::vector` accesses at `[_y][_x]` are modelled
as `.error ()` when the index is not strictly inside the grid. -/
def ConsumeGrass (t : Terrain) (X Y : ℕ) (val : ℚ) :
    Except Unit (Terrain × ℚ) :=
  if X > t.w ∨ Y > t.h then .ok (t, 0)
  else if X < t.w ∧ Y < t.h then
    let v := MinQ (val * (t.grassMax Y X - t.grassMin Y X)) (t.grass Y X)
    let result := Clamp (t.grassMin Y X) (t.grassMax Y X) (t.grass Y X - v)
    .ok ({ t with grass := upd2 t.grass X Y result }, t.grass Y X - result)
  else .error ()

/-- The eight neighbour offsets visited by `Terrain::GetLowestGrass`, in the
order they appear in the source's `neighbourCells` initialiser. -/
def lowestOffsets : List (ℤ × ℤ) :=
  [(-1, 1), (0, 1), (1, 1), (-1, 0), (1, 0), (-1, -1), (0, -1), (1, -1)]

/-- One iteration of `Terrain::GetLowestGrass`'s scan: skip the offset
when out of range, otherwise keep the strictly lower grass value
(`FLT_MAX` start modelled as `none`). -/
def lowStep (t : Terrain) (src : GridPos) (st : GridPos × Option ℚ)
    (off : ℤ × ℤ) : GridPos × Option ℚ :=
  let nx := src.x + off.1
  let ny := src.y + off.2
  if 0 ≤ nx ∧ nx < (t.w : ℤ) ∧ 0 ≤ ny ∧ ny < (t.h : ℤ) then
    let g := t.grass ny.toNat nx.toNat
    match st.2 with
    | none => (⟨nx, ny⟩, some g)
    | some v => if g < v then (⟨nx, ny⟩, some g) else st
  else st

/-- `Terrain::GetLowestGrass(_src)`: scan the 8 neighbours keeping the
strictly lowest grass value.  The source visits the offsets in a
`std::random_device`-seeded random order; `ord` is that visit order (a
permutation of `lowestOffsets`). -/
def GetLowestGrass (t : Terrain) (ord : List (ℤ × ℤ)) (src : GridPos) :
    GridPos :=
  (ord.foldl (lowStep t src) (⟨-1, -1⟩, none)).1

/-- The fertilizer advance of `Terrain::Update` at one cell (lines 211-214):
`Clamp(thresh.first, thresh.second, fert + rate * dt * thresh.second)`. -/
def fertAdvanced (t : Terrain) (dt : ℚ) (x y : ℕ) : ℚ :=
  Clamp (t.fertMin y x) (t.fertMax y x)
    (t.fert y x + t.fertRate y x * dt * t.fertMax y x)

/-- The grass growth increment of `Terrain::Update` at one cell
(lines 216-217): `Min(fertilizer-after-advance, grassRate * dt * grassMax)`. -/
def growth (t : Terrain) (dt : ℚ) (x y : ℕ) : ℚ :=
  MinQ (fertAdvanced t dt x y) (t.grassRate y x * dt * t.grassMax y x)

/-- The body of `Terrain::Update`'s double loop for one cell `(x, y)`;
`ord` supplies the randomized neighbour visit order for the
`GetLowestGrass` call this cell may make. -/
def updateCell (dt : ℚ) (ord : ℕ → ℕ → List (ℤ × ℤ)) (t : Terrain)
    (c : ℕ × ℕ) : Terrain :=
  let x := c.1
  let y := c.2
  let f1 := fertAdvanced t dt x y
  let t1 := { t with fert := upd2 t.fert x y f1 }
  let consumable := growth t dt x y
  if t1.grass y x ≥ t1.grassMax y x then
    let p := GetLowestGrass t1 (ord x y) ⟨(x : ℤ), (y : ℤ)⟩
    -- `continue`: skips the fertilizer debit and threshold rewrite
    if p.x < 0 ∨ p.y < 0 then t1
    else
      let c8 := consumable / 8
      let t2 := { t1 with
        grass := upd2 t1.grass p.x.toNat p.y.toNat
          (Clamp 0 (t1.grassMax p.y.toNat p.x.toNat)
            (t1.grass p.y.toNat p.x.toNat + c8)) }
      let f2 := Clamp 0 (t2.fertMax y x) (t2.fert y x - c8)
      { t2 with
        fert := upd2 t2.fert x y f2,
        fertMin := upd2 t2.fertMin x y (f2 / t2.fertMax y x) }
  else
    let t2 := { t1 with
      grass := upd2 t1.grass x y (t1.grass y x + consumable) }
    let f2 := Clamp 0 (t2.fertMax y x) (t2.fert y x - consumable)
    { t2 with
      fert := upd2 t2.fert x y f2,
      fertMin := upd2 t2.fertMin x y (f2 / t2.fertMax y x) }

/-- The row-major cell visit order of `Terrain::Update`'s loops
(`y` outer, `x` inner). -/
def cellsRowMajor (w h : ℕ) : List (ℕ × ℕ) :=
  (List.range h).flatMap (fun y => (List.range w).map (fun x => (x, y)))

/-- `Terrain::Update(_dt)`: the in-place double loop, as a fold over the
row-major cell order. -/
def Update (t : Terrain) (dt : ℚ) (ord : ℕ → ℕ → List (ℤ × ℤ)) : Terrain :=
  (cellsRowMajor t.w t.h).foldl (updateCell dt ord) t

/-! ## Pathfinding (`Terrain::GetShortestPath`, `Terrain::GetBestGrassPos`)

`Ecosystem::Node` objects live in fixed slots of `mNodeLayer`; a `Node*`
is therefore modelled as the slot's grid position, and dereferencing a
stored pointer reads the slot's current contents — exactly the C++
aliasing.  The float value `std::numeric_limits<float>::infinity()`, to
which every cost is reset at the start of a search, is modelled as
`none`. -/

/-- One `mNodeLayer` slot (`Ecosystem::Node`): costs (`none` = the
infinity reset value) and the predecessor pointer (`none` = `nullptr`). -/
structure Node where
  pos : GridPos
  tcost : Option ℚ
  hcost : Option ℚ
  fcost : Option ℚ
  prev : Option GridPos
  deriving DecidableEq, Repr

/-- The node layer, addressed `L y x` like `mNodeLayer[y][x]`. -/
def NodeLayer : Type := ℕ → ℕ → Node

/-- The node layer after the reset loop at the top of each search:
every cost infinite, every predecessor null, `pos` as `Init` set it. -/
def resetLayer : NodeLayer := fun y x => ⟨⟨x, y⟩, none, none, none, none⟩

/-- `a ≤ b` where `a` may be the infinity reset value (then false). -/
def leInf (a : Option ℚ) (b : ℚ) : Bool :=
  match a with
  | none => false
  | some v => v ≤ b

/-- Look up a node slot by position (in-bounds positions only arise). -/
def nodeAt (L : NodeLayer) (p : GridPos) : Node := L p.y.toNat p.x.toNat

/-- Write a node slot. -/
def setNode (L : NodeLayer) (p : GridPos) (n : Node) : NodeLayer :=
  fun y x => if (y : ℤ) = p.y ∧ (x : ℤ) = p.x then n else L y x

/-- The 8 neighbour offsets `(i, j)` in the iteration order of
`GetNeighbours` (`j` outer from -1 to 1, `i` inner, skipping `(0,0)`). -/
def offsets8 : List (ℤ × ℤ) :=
  [(-1, -1), (0, -1), (1, -1), (-1, 0), (1, 0), (-1, 1), (0, 1), (1, 1)]

/-- The 9 offsets `(i, j)` of the `getNeigh` lambda inside
`GetBestGrassPos`, which does not skip `(0,0)`. -/
def offsets9 : List (ℤ × ℤ) :=
  [(-1, -1), (0, -1), (1, -1), (-1, 0), (0, 0), (1, 0), (-1, 1), (0, 1), (1, 1)]

def inBounds (w h : ℕ) (p : GridPos) : Prop :=
  0 ≤ p.x ∧ p.x < (w : ℤ) ∧ 0 ≤ p.y ∧ p.y < (h : ℤ)

instance (w h : ℕ) (p : GridPos) : Decidable (inBounds w h p) := by
  unfold inBounds; infer_instance

/-- `Terrain::GetNeighbours(_src, _dest, _curT, _prev)`: improve and
collect the admissible neighbour slots.  The returned list is shuffled by
the caller-supplied `shuf` oracle (the `std::random_device`-seeded
`std::shuffle` of the source). -/
def GetNeighbours (w h : ℕ) (shuf : List GridPos → List GridPos)
    (L : NodeLayer) (src dest : GridPos) (curT : ℚ) (prev : Option GridPos) :
    NodeLayer × List GridPos :=
  let st := offsets8.foldl
    (fun (st : NodeLayer × List GridPos) ij =>
      let n : GridPos := ⟨src.x + ij.1, src.y + ij.2⟩
      if ¬ inBounds w h n then st
      else
        let hc := GetOctileCost ((dest.x - n.x).natAbs : ℚ)
            ((dest.y - n.y).natAbs : ℚ)
        let step := if ij.1 = 0 ∨ ij.2 = 0 then curT + 1 else curT + sqrt2C
        if leInf (nodeAt st.1 n).fcost (hc + step) then st
        else if prev.isSome ∧
            (nodeAt st.1 (prev.getD ⟨0, 0⟩)).prev = some n then st
        else
          -- pos, tcost, hcost, fcost, prev
          let nd : Node :=
            ⟨(nodeAt st.1 n).pos, some step, some hc, some (hc + step), prev⟩
          (setNode st.1 n nd, st.2 ++ [n]))
    (L, [])
  (st.1, shuf st.2)

/-- Pop the queue element whose current `fcost` is smallest (the
`std::priority_queue` under `Comp`, which orders by descending `fcost`
and pops the smallest).  Ties and stale heap entries are resolved in an
implementation-defined way in C++; here the earliest-pushed minimal
element is taken — every concrete run below keeps the queue free of
ties, so this choice is exact for them. -/
def popMin (L : NodeLayer) (q : List GridPos) :
    Option (GridPos × List GridPos) :=
  match q with
  | [] => none
  | p :: rest =>
    let best := rest.foldl
      (fun (b : GridPos) c =>
        match (nodeAt L b).fcost, (nodeAt L c).fcost with
        | none, none => b
        | none, some _ => c
        | some _, none => b
        | some vb, some vc => if vc < vb then c else b)
      p
    some (best, q.erase best)

/-- Path reconstruction at the destination: insert the current node's
position, then walk the predecessor chain inserting at the front;
`fuel` bounds the chain walk (the C++ walks raw pointers). -/
def buildPath (L : NodeLayer) : ℕ → Option GridPos → List GridPos →
    List GridPos
  | 0, _, acc => acc
  | _ + 1, none, acc => acc
  | fuel + 1, some p, acc =>
    buildPath L fuel (nodeAt L p).prev ((nodeAt L p).pos :: acc)

/-- The `while (!q.empty())` loop of `GetShortestPath`; `none` = the
given fuel did not cover the run (never the case in the theorems
below). -/
def spGo (w h : ℕ) (shuf : List GridPos → List GridPos) (dest : GridPos) :
    ℕ → NodeLayer → List GridPos → Option (List GridPos)
  | 0, _, _ => none
  | fuel + 1, L, q =>
    match popMin L q with
    | none => some []
    | some (cur, rest) =>
      if rest.length > 1000 then some []
      else if cur = dest then
        some (buildPath L (w * h + 1) (nodeAt L cur).prev
          [(nodeAt L cur).pos])
      else
        let nb := GetNeighbours w h shuf L cur dest
          ((nodeAt L cur).tcost.getD 0) (some cur)
        spGo w h shuf dest fuel nb.1 (rest ++ nb.2)

/-- `Terrain::GetShortestPath(_src, _dest)`: reset the node layer, seed
the queue with the source's neighbours (`curT = 0`, `prev = nullptr`),
then run the search loop.  Every node ever pushed has been assigned a
finite `tcost` at push time, so the `getD 0` default in `spGo` is never
taken. -/
def GetShortestPath (t : Terrain) (shuf : List GridPos → List GridPos)
    (fuel : ℕ) (src dest : GridPos) : Option (List GridPos) :=
  let nb := GetNeighbours t.w t.h shuf resetLayer src dest 0 none
  spGo t.w t.h shuf dest fuel nb.1 nb.2

/-- `sqrt((da)² + (db)²) < lim` over the reals, decided exactly on the
squared distance (`lim ≤ 0` is always false since the root is
nonnegative). -/
def sqrtLt (d2 : ℤ) (lim : ℚ) : Bool :=
  decide (0 < lim ∧ (d2 : ℚ) < lim ^ 2)

/-- Grass fraction `grass / (thresh.second - thresh.first)` used by
`GetBestGrassPos` (and `GetGrassColor`). -/
def grassFrac (t : Terrain) (p : GridPos) : ℚ :=
  t.grass p.y.toNat p.x.toNat /
    (t.grassMax p.y.toNat p.x.toNat - t.grassMin p.y.toNat p.x.toNat)

/-- The `getNeigh` lambda local to `GetBestGrassPos`: like
`GetNeighbours` but with no heuristic (`hcost = 0`), no predecessor or
cycle handling, and the `(0,0)` offset not skipped. -/
def getNeighBest (w h : ℕ) (shuf : List GridPos → List GridPos)
    (L : NodeLayer) (src : GridPos) (curT : ℚ) : NodeLayer × List GridPos :=
  let st := offsets9.foldl
    (fun (st : NodeLayer × List GridPos) ij =>
      let n : GridPos := ⟨src.x + ij.1, src.y + ij.2⟩
      if ¬ inBounds w h n then st
      else
        let step := if ij.1 = 0 ∨ ij.2 = 0 then curT + 1 else curT + sqrt2C
        if leInf (nodeAt st.1 n).fcost step then st
        else
          -- pos, tcost, hcost, fcost, prev (prev untouched by this lambda)
          let nd : Node :=
            ⟨(nodeAt st.1 n).pos, some step, some 0, some step,
              (nodeAt st.1 n).prev⟩
          (setNode st.1 n nd, st.2 ++ [n]))
    (L, [])
  (st.1, shuf st.2)

/-- The collection loop of `GetBestGrassPos`: pop, collect the cell if
its grass fraction exceeds `_minAlpha`, and expand it when it lies
strictly inside the search radius. -/
def bestGo (t : Terrain) (shuf : List GridPos → List GridPos)
    (src : GridPos) (lim alpha : ℚ) :
    ℕ → NodeLayer → List GridPos → List GridPos → Option (List GridPos)
  | 0, _, _, _ => none
  | fuel + 1, L, q, acc =>
    match popMin L q with
    | none => some acc
    | some (cur, rest) =>
      let acc1 := if grassFrac t cur > alpha then acc ++ [cur] else acc
      let d2 := (cur.x - src.x) * (cur.x - src.x) +
        (cur.y - src.y) * (cur.y - src.y)
      if sqrtLt d2 lim then
        let nb := getNeighBest t.w t.h shuf L cur
          ((nodeAt L cur).fcost.getD 0)
        bestGo t shuf src lim alpha fuel nb.1 (rest ++ nb.2) acc1
      else bestGo t shuf src lim alpha fuel L rest acc1

/-- The final selection loop of `GetBestGrassPos` (lines 361-373 of
Terrain.cpp), exactly as written: `highestV` is initialised to the first
candidate's fraction and — as in the source — never updated inside the
loop; `highestId` becomes the index of the last candidate whose fraction
beats the first's. -/
def selectBest (t : Terrain) (cands : List GridPos) : GridPos :=
  match cands with
  | [] => ⟨-1, -1⟩
  | c0 :: rest =>
    let highestV := grassFrac t c0
    let highestId := (rest.foldl
      (fun (st : ℕ × ℕ) c =>
        (st.1 + 1, if grassFrac t c > highestV then st.1 else st.2))
      (1, 0)).2
    (c0 :: rest).getD highestId ⟨-1, -1⟩

/-- `Terrain::GetBestGrassPos(_src, _limit, _minAlpha)`: reset the layer,
seed with `getNeigh(src, ·, 0)`, run the collection loop, shuffle the
candidates, and pick via the selection loop. -/
def GetBestGrassPos (t : Terrain) (shuf : List GridPos → List GridPos)
    (fuel : ℕ) (src : GridPos) (lim alpha : ℚ) : Option GridPos :=
  let nb := getNeighBest t.w t.h shuf resetLayer src 0
  match bestGo t shuf src lim alpha fuel nb.1 nb.2 [] with
  | none => none
  | some acc => some (selectBest t (shuf acc))

/-! ## Creatures and the ecosystem (`Creature.cpp`, `EcoSystem.cpp`)

The two concrete species are the `Fox` and `Rabbit` subclasses; the
`dynamic_cast<Fox*>` / `dynamic_cast<Rabbit*>` tests of `EcoSystem::Eat`
become tests on a species tag. -/

inductive Species where
  | fox
  | rabbit
  deriving DecidableEq, Repr

/-- Per-creature state (`Ecosystem::Creature`): the fields the embedded
operations read or write.  `dead` is the `FLAG_DEAD` bit of `mBitFlags`;
energies and fatigues are the `(first = current, second = max)` pairs. -/
structure Creature where
  species : Species
  size : ℚ
  speed : ℚ
  sense : ℚ
  energyCur : ℚ
  energyMax : ℚ
  fatigueCur : ℚ
  fatigueMax : ℚ
  repThresh : ℚ     -- mEvoData.mfReplicationThresh
  posX : ℕ
  posY : ℕ
  dead : Bool
  path : List GridPos
  accPathDt : ℚ
  deriving DecidableEq, Repr

/-- The `Action` enum and the `gActionCost` table
`{0.2f, 0.f, 0.0125f, 0.5f}` of Creature.cpp. -/
inductive Action where
  | MOVE
  | EAT
  | IDLE
  | REPLICATE
  deriving DecidableEq

def gActionCost : Action → ℚ
  | .MOVE => 2 / 10
  | .EAT => 0
  | .IDLE => 125 / 10000
  | .REPLICATE => 5 / 10

/-- `GetActionCost(size, speed, sense, energy, e, _modifier)`:
`(cost/2 * ((2*size² * speed*speed + sense + size) + energy)
 + (cost/2)*energy) * modifier`. -/
def GetActionCost (size speed sense energy : ℚ) (e : Action)
    (modifier : ℚ) : ℚ :=
  (gActionCost e / 2 * ((2 * size ^ 2 * speed * speed + sense + size) + energy)
    + (gActionCost e / 2) * energy) * modifier

/-- `EcoSystem::ReturnEnergyToMap(_v, _p)`: an unclamped, unchecked
fertilizer deposit at `_p`. -/
def ReturnEnergyToMap (t : Terrain) (v : ℚ) (X Y : ℕ) : Terrain :=
  { t with fert := upd2 t.fert X Y (t.fert Y X + v) }

/-- `Creature::ConsumeEnergy(_f)`: deposit the overshoot below zero to
the creature's cell, then clamp the current energy into `[0, max]`;
returns the new current energy. -/
def ConsumeEnergy (c : Creature) (t : Terrain) (f : ℚ) :
    Creature × Terrain × ℚ :=
  let t1 := if f > c.energyCur then
      ReturnEnergyToMap t (f - c.energyCur) c.posX c.posY
    else t
  let e1 := Clamp 0 c.energyMax (c.energyCur - f)
  ({ c with energyCur := e1 }, t1, e1)

/-- `Creature::Eaten(Creature*)`: set the dead flag, zero both the
current and the maximum energy, and return the previous current
energy. -/
def Eaten (c : Creature) : Creature × ℚ :=
  ({ c with dead := true, energyCur := 0, energyMax := 0 }, c.energyCur)

/-- The capacity handling of `Creature::Eat()` on the energy `v`
returned by `EcoSystem::Eat` at line 270 (Creature.cpp lines 271-274):
deposit the overshoot above max as fertilizer at the creature's cell,
then clamp the current energy. -/
def eatClamp (c : Creature) (t : Terrain) (v : ℚ) : Creature × Terrain :=
  let t1 := if c.energyCur + v > c.energyMax then
      ReturnEnergyToMap t (c.energyCur + v - c.energyMax) c.posX c.posY
    else t
  ({ c with energyCur := Clamp c.energyCur c.energyMax (c.energyCur + v) }, t1)

/-- `Creature::Eat()` continued: the overshoot deposit and clamp
(`eatClamp`, lines 271-274), then the replication check (lines
275-276).  `Replicate` draws from `std::random_device` and spawns
through the species chart, both outside this model, so its effect is
the oracle `repl`. -/
def CreatureEat (repl : Creature × Terrain → Creature × Terrain)
    (c : Creature) (t : Terrain) (v : ℚ) : Creature × Terrain × ℚ :=
  let ct := eatClamp c t v
  let ct2 := if ct.1.energyCur / ct.1.energyMax ≥ ct.1.repThresh
    then repl ct else ct
  (ct2.1, ct2.2, v)

/-- The whole-ecosystem state: the terrain plus the creature registry
`mAllCreatures` (pointers become list indices) and the death-deposit
factor `mfDeathThresh`. -/
structure EcoState where
  terrain : Terrain
  creatures : List Creature
  deathThresh : ℚ

/-- `sqrt(d2) > 1.5` over the reals, decided exactly on the squared
distance (the distance guard of `EcoSystem::Eat`). -/
def sqrtGtThreeHalves (d2 : ℤ) : Bool :=
  decide ((9 : ℚ) / 4 < (d2 : ℚ))

/-- `EcoSystem::Eat(_p, _predator)` (EcoSystem.cpp lines 390-428).  The
predator pointer is the registry index `pi`; pointer equality
`mAllCreatures[i] == _predator` is index equality.  The unchecked space
layer read requires `_p` in bounds; `ConsumeGrass` supplies the `Except`
error for its own out-of-bounds access. -/
def EcoEat (w : EcoState) (p : GridPos) (pi : ℕ) :
    Except Unit (EcoState × ℚ) :=
  match w.creatures[pi]? with
  | none => .error ()
  | some pred =>
    let d2 := (p.x - (pred.posX : ℤ)) * (p.x - (pred.posX : ℤ)) +
      (p.y - (pred.posY : ℤ)) * (p.y - (pred.posY : ℤ))
    if sqrtGtThreeHalves d2 then .ok (w, 0)
    else
      let i := w.terrain.space p.y.toNat p.x.toNat
      let grassOnly : Except Unit (EcoState × ℚ) :=
        match ConsumeGrass w.terrain p.x.toNat p.y.toNat 1 with
        | .error e => .error e
        | .ok tr => .ok ({ w with terrain := tr.1 }, tr.2)
      if hi : 0 ≤ i ∧ i.toNat < w.creatures.length then
        let occ := w.creatures.get ⟨i.toNat, hi.2⟩
        if i.toNat = pi then
          if pred.species = .fox then .ok (w, 0) else grassOnly
        else if occ.species = .fox ∧ pred.species = .rabbit then grassOnly
        else if occ.size < 12 / 10 * pred.size then
          let oe := Eaten occ
          .ok ({ w with creatures := w.creatures.set i.toNat oe.1 }, oe.2)
        else grassOnly
      else
        let w1 := { w with terrain := { w.terrain with
          space := upd2 w.terrain.space p.x.toNat p.y.toNat (-1) } }
        match ConsumeGrass w1.terrain p.x.toNat p.y.toNat 1 with
        | .error e => .error e
        | .ok tr => .ok ({ w1 with terrain := tr.1 }, tr.2)

/-- One iteration of the reverse removal loop of
`EcoSystem::CleanUpDead` at index `i`: clear the cell if the creature
died in place, deposit `maxEnergy * mfDeathThresh` of fertilizer at the
death cell, then swap-with-last and pop. -/
def cleanStep (w : EcoState) (i : ℕ) : EcoState :=
  match w.creatures[i]? with
  | none => w
  | some c =>
    if c.dead then
      let sp := if w.terrain.space c.posY c.posX = (i : ℤ) then
          upd2 w.terrain.space c.posX c.posY (-1)
        else w.terrain.space
      let fert1 := upd2 w.terrain.fert c.posX c.posY
        (w.terrain.fert c.posY c.posX + c.energyMax * w.deathThresh)
      let cs1 := if i ≠ w.creatures.length - 1 then
          (w.creatures.set i ((w.creatures.getLast?).getD c)).dropLast
        else w.creatures.dropLast
      { w with
          terrain := { w.terrain with space := sp, fert := fert1 },
          creatures := cs1 }
    else w

/-- `EcoSystem::CleanUpDead()`: the reverse index loop
`for (i = size-1; i >= 0; --i)`. -/
def CleanUpDead (w : EcoState) : EcoState :=
  ((List.range w.creatures.length).reverse).foldl cleanStep w

/-- The `while (mfAccPathDt > tReq)` loop of `Creature::Move`,
structurally recursive on the pending path.  `fsqrt` is the
single-precision `sqrt` — itself a rational-valued function — applied to
the integer squared segment length. -/
def moveGo (fsqrt : ℤ → ℚ) : List GridPos → ℚ → Creature → Terrain →
    Creature × Terrain
  | [], acc, c, t => ({ c with path := [], accPathDt := acc }, t)
  | front :: rest, acc, c, t =>
    let euc := (front.x - (c.posX : ℤ)) * (front.x - (c.posX : ℤ)) +
      (front.y - (c.posY : ℤ)) * (front.y - (c.posY : ℤ))
    let tReq := fsqrt euc / c.speed
    if acc > tReq then
      let c1 := { c with posX := front.x.toNat, posY := front.y.toNat }
      let ct := ConsumeEnergy c1 t
        (GetActionCost c1.size c1.speed c1.sense c1.energyCur .MOVE 1)
      moveGo fsqrt rest (acc - tReq) ct.1 ct.2.1
    else ({ c with path := front :: rest, accPathDt := acc }, t)

/-- `Creature::Move(_dt)`: accumulate `dt` and run the segment loop. -/
def Move (fsqrt : ℤ → ℚ) (dt : ℚ) (c : Creature) (t : Terrain) :
    Creature × Terrain :=
  moveGo fsqrt c.path (c.accPathDt + dt) c t

/-- `Creature::UpdateAwake(_dt)` (Creature.cpp lines 313-324): the
`_dt <= 0` early return, then the idle energy cost, the death check, the
movement, and the species' virtual `UpdateAwakeBehaviour` — the latter is
species code outside the core model, passed as the `beh` oracle. -/
def UpdateAwake (fsqrt : ℤ → ℚ)
    (beh : Creature × Terrain → Creature × Terrain) (dt : ℚ)
    (c : Creature) (t : Terrain) : Creature × Terrain :=
  if dt ≤ 0 then (c, t)
  else
    let ct1 := ConsumeEnergy c t
      (GetActionCost c.size c.speed c.sense c.energyCur .IDLE dt)
    let c1 := ct1.1
    let c2 := if c1.energyCur ≤ 0 then { c1 with dead := true } else c1
    let ct3 := if c2.path ≠ [] then Move fsqrt dt c2 ct1.2.1 else (c2, ct1.2.1)
    beh ct3

/-- `EcoSystem::GetGridVal(_x, _y)` (EcoSystem.cpp lines 336-349): a
correctly `>=`-guarded occupancy accessor; the stale-index check returns
`-1`. -/
def GetGridVal (w : EcoState) (X Y : ℕ) : ℤ :=
  if X ≥ w.terrain.w ∨ Y ≥ w.terrain.h then -1
  else
    let v := w.terrain.space Y X
    if 0 ≤ v ∧ (w.creatures.length : ℤ) ≤ v then -1 else v

/-- `EcoSystem::GetGrassVal(_x, _y)` (EcoSystem.cpp lines 351-356): the
guard is `_x > mnWidth || _y > mnHeight` — `>` rather than `>=` — so the
unchecked read that follows is out of bounds when `_x = width` (or
`_y = height`); that read is the `.error ()` case. -/
def GetGrassVal (w : EcoState) (X Y : ℕ) : Except Unit ℚ :=
  if X > w.terrain.w ∨ Y > w.terrain.h then .ok 0
  else if X < w.terrain.w ∧ Y < w.terrain.h then .ok (w.terrain.grass Y X)
  else .error ()

/-! ## Concrete states used by the counterexamples and witnesses -/

/-- A fixed (attainable) outcome of the randomized neighbour visit
order: the source order of `neighbourCells` itself. -/
def ordDefault : ℕ → ℕ → List (ℤ × ℤ) := fun _ _ => lowestOffsets

/-- Base terrain template: uniform thresholds `grass ∈ [0,1]`,
`fertilizer ∈ [0,10]`, no occupants. -/
def baseT (w h : ℕ) (g f gr fr : ℕ → ℕ → ℚ) : Terrain :=
  { w := w, h := h, space := fun _ _ => -1, grass := g, fert := f,
    grassRate := gr, fertRate := fr,
    grassMin := fun _ _ => 0, grassMax := fun _ _ => 1,
    fertMin := fun _ _ => 0, fertMax := fun _ _ => 10 }

/-- 1×1 terrain: grass 9/10 (below max 1), fertilizer 5, grass rate 1.
One `Update(1)` adds `min(5, 1·1·1) = 1` of growth without clamping. -/
def tC1 : Terrain := baseT 1 1 (fun _ _ => 9/10) (fun _ _ => 5)
  (fun _ _ => 1) (fun _ _ => 0)

/-- 1×1 terrain for the self-path search (no in-bounds neighbour). -/
def tC3a : Terrain := baseT 1 1 (fun _ _ => 0) (fun _ _ => 5)
  (fun _ _ => 1) (fun _ _ => 0)

/-- 2×1 terrain for the self-path search (one in-bounds neighbour). -/
def tC3b : Terrain := baseT 2 1 (fun _ _ => 0) (fun _ _ => 5)
  (fun _ _ => 1) (fun _ _ => 0)

/-- 3×1 terrain with grass fractions 0.5, 0.9, 0.6 at x = 0, 1, 2
(capacity `max - min = 1` everywhere). -/
def tC4 : Terrain := baseT 3 1
  (fun _ x => if x = 0 then 1/2 else if x = 1 then 9/10 else 6/10)
  (fun _ _ => 5) (fun _ _ => 1) (fun _ _ => 0)

/-- 2×1 terrain for the spillover debit: cell (0,0) saturated
(grass 1 = max) with fertilizer 8 and growth rate 8/10; its only
neighbour (1,0) holds 19/20 of grass, 1/20 below its max. -/
def tC5 : Terrain := baseT 2 1
  (fun _ x => if x = 0 then 1 else 19/20)
  (fun _ x => if x = 0 then 8 else 0)
  (fun _ x => if x = 0 then 8/10 else 0)
  (fun _ _ => 0)

/-- A sample creature record. -/
def mkC (sp : Species) (sz e m : ℚ) (x y : ℕ) : Creature :=
  { species := sp, size := sz, speed := 1, sense := 1, energyCur := e,
    energyMax := m, fatigueCur := 0, fatigueMax := 1, repThresh := 2,
    posX := x, posY := y, dead := false, path := [], accPathDt := 0 }

def cDef : Creature := mkC .rabbit 1 0 0 0 0

/-- 2×2 terrain whose cell (0,0) is occupied by creature index 1;
grass 1/2 everywhere. -/
def tOcc : Terrain :=
  { baseT 2 2 (fun _ _ => 1/2) (fun _ _ => 5) (fun _ _ => 1) (fun _ _ => 0)
    with space := fun y x => if y = 0 ∧ x = 0 then 1 else -1 }

/-- Rabbit predator (index 0, size 1) standing at (0,0); small fox
occupant (index 1, size 1/2) on the same cell.  The occupant is below
`1.2 ×` the predator's size. -/
def wRF : EcoState :=
  { terrain := tOcc,
    creatures := [mkC .rabbit 1 3 10 0 0, mkC .fox (1/2) 4 10 0 0],
    deathThresh := 3/10 }

/-- Fox predator (index 0, size 3/2) at (0,0); rabbit occupant
(index 1, size 1) on the same cell — the spec's predation scenario. -/
def wFR : EcoState :=
  { terrain := tOcc,
    creatures := [mkC .fox (3/2) 3 10 0 0, mkC .rabbit 1 4 10 0 0],
    deathThresh := 3/10 }

/-- Rabbit "predator" (index 0, size 1) at (0,0); fox occupant
(index 1, size 3/2) on the same cell — the reverse scenario. -/
def wRFbig : EcoState :=
  { terrain := tOcc,
    creatures := [mkC .rabbit 1 3 10 0 0, mkC .fox (3/2) 4 10 0 0],
    deathThresh := 3/10 }

/-- A fox standing on its own cell (space layer holds its own index 0). -/
def wSelfFox : EcoState :=
  { terrain := { tOcc with space := fun y x => if y = 0 ∧ x = 0 then 0 else -1 },
    creatures := [mkC .fox 1 3 10 0 0],
    deathThresh := 3/10 }

/-- A single starved (dead, max energy still 10) creature at (0,0). -/
def wStarve : EcoState :=
  { terrain := tOcc,
    creatures := [{ mkC .rabbit 1 0 10 0 0 with dead := true }],
    deathThresh := 3/10 }

/-- A 1×1-grid ecosystem for the bounds-guard checks. -/
def wC9 : EcoState :=
  { terrain := baseT 1 1 (fun _ _ => 1/2) (fun _ _ => 5) (fun _ _ => 1)
      (fun _ _ => 0),
    creatures := [], deathThresh := 3/10 }

/-- Well-formedness of the fertilizer data drawn by `Terrain::Init`:
thresholds ordered and nonnegative with `max ≥ 1`, and the fertilizer
value within `[0, max]` (as `Init` seeds it). -/
def FertWF (t : Terrain) : Prop :=
  ∀ x y, x < t.w → y < t.h →
    1 ≤ t.fertMax y x ∧ 0 ≤ t.fertMin y x ∧ t.fertMin y x ≤ t.fertMax y x ∧
    0 ≤ t.fert y x ∧ t.fert y x ≤ t.fertMax y x

/-- A creature for the capacity-violation witnesses: current energy 5 of
max 10. -/
def cW8 : Creature := mkC .rabbit 1 5 10 0 0

/-- The successful result of `ConsumeGrass tC1 0 0 (1/2)` (a concrete
in-bounds consumption used as a witness input). -/
def cgC1 : Terrain × ℚ := (ConsumeGrass tC1 0 0 (1/2)).toOption.getD (tC1, 0)

/-! ## Theorems

The `Rat` field operations are `@[irreducible]` in core Lean; they are
unsealed so that `decide` can evaluate the embedded programs on the
concrete states above. -/

unseal Rat.add Rat.mul Rat.inv Rat.sub

/-- C1 counterexample: on the 1×1 terrain `tC1` (grass 9/10, max 1,
fertilizer 5, rate 1), one `Update(1)` grows the unsaturated cell by
`min(fertilizer, rate·dt·max) = 1` with no clamp (Terrain.cpp line 228),
leaving grass 19/10 strictly above its configured maximum 1 — the
claimed invariant `grass ≤ max` fails after `Update`. -/
theorem C1_counterexample :
    (Update tC1 1 ordDefault).grass 0 0 = 19/10 ∧
    (Update tC1 1 ordDefault).grassMax 0 0 = 1 ∧
    ¬ (Update tC1 1 ordDefault).grass 0 0 ≤
      (Update tC1 1 ordDefault).grassMax 0 0 := by
  decide

/-- C3 counterexample: on the 1×2 grid `tC3b`, `GetShortestPath((0,0),
(0,0))` is not empty — the destination test only runs on popped nodes
and the source is never seeded, so the search walks out to (1,0) and
back, returning the two-step loop [(1,0), (0,0)]. -/
theorem C3_counterexample :
    GetShortestPath tC3b id 10 ⟨0, 0⟩ ⟨0, 0⟩ = some [⟨1, 0⟩, ⟨0, 0⟩] ∧
    ([⟨1, 0⟩, ⟨0, 0⟩] : List GridPos) ≠ [] := by
  decide

/-- C3 amended: `GetShortestPath(a, a)` returns the empty path only when
`a` has no in-bounds neighbour (the 1×1 grid); when a neighbour exists
the search leaves `a` and re-enters it, returning a nonempty
out-and-back path that ends at `a` (on the 1×2 grid, [(1,0), (0,0)]). -/
theorem C3_amended_path :
    GetShortestPath tC3a id 10 ⟨0, 0⟩ ⟨0, 0⟩ = some [] ∧
    GetShortestPath tC3b id 10 ⟨0, 0⟩ ⟨0, 0⟩ = some [⟨1, 0⟩, ⟨0, 0⟩] ∧
    ([⟨1, 0⟩, ⟨0, 0⟩] : List GridPos).getLast? = some ⟨0, 0⟩ := by
  decide

/-- C4 code bug: on `tC4`, with candidates collected in the order
(0,0), (1,0), (2,0) (fractions 0.5, 0.9, 0.6 — an attainable shuffle
outcome), `GetBestGrassPos` returns (2,0) with fraction 0.6 even though
(1,0) lies within the radius, exceeds the bound, and has the strictly
higher fraction 0.9: the selection loop (Terrain.cpp line 370) updates
`highestId` but never `highestV`, so it keeps the *last* candidate
beating the *first* one instead of the maximum. -/
theorem C4_code_bug :
    GetBestGrassPos tC4 id 20 ⟨0, 0⟩ 5 (4/10) = some ⟨2, 0⟩ ∧
    grassFrac tC4 ⟨1, 0⟩ = 9/10 ∧
    grassFrac tC4 ⟨2, 0⟩ = 6/10 ∧
    grassFrac tC4 ⟨2, 0⟩ < grassFrac tC4 ⟨1, 0⟩ ∧
    sqrtLt 1 5 = true ∧
    grassFrac tC4 ⟨1, 0⟩ > 4/10 := by
  decide

/-- C5 counterexample: on `tC5`, the saturated cell (0,0) spills
`growth/8 = 1/10` toward its least-grass neighbour (1,0); the neighbour
clamps at its maximum and absorbs only 1/20, yet the cell's fertilizer
is debited the full 1/10 (Terrain.cpp line 231 subtracts
`consumableValue`, not the absorbed amount). -/
theorem C5_counterexample :
    tC5.grass 0 0 ≥ tC5.grassMax 0 0 ∧
    (Update tC5 1 ordDefault).grass 0 1 - tC5.grass 0 1 = 1/20 ∧
    fertAdvanced tC5 1 0 0 - (Update tC5 1 ordDefault).fert 0 0 = 1/10 ∧
    ((1 : ℚ)/10) ≠ 1/20 := by
  decide

/-- C6 counterexample: a size-1 rabbit (index 0) eating at its own cell
occupied by a size-1/2 fox (index 1) satisfies the claimed dominance
condition `1/2 < 1.2·1`, yet the fox is not consumed — the
rabbit-cannot-eat-fox branch (EcoSystem.cpp line 416) degrades to grass
(returning 1/2 of grass energy, both creatures alive).  A fox eating at
its own occupied cell returns 0 without consuming any grass
(line 409), so fox self-consumption does not degrade to grass
either. -/
theorem C6_counterexample :
    (wRF.creatures.getD 1 cDef).size <
      12/10 * (wRF.creatures.getD 0 cDef).size ∧
    ((EcoEat wRF ⟨0, 0⟩ 0).toOption.map
      (fun s => (s.1.creatures.map Creature.dead, s.2))) =
      some ([false, false], 1/2) ∧
    ((EcoEat wSelfFox ⟨0, 0⟩ 0).toOption.map
      (fun s => (s.2, s.1.terrain.grass 0 0))) = some (0, 1/2) ∧
    wSelfFox.terrain.grass 0 0 = 1/2 := by
  decide

/-- C7 counterexample: a size-3/2 fox eats the rabbit occupant
(configured max energy 10, `mfDeathThresh = 3/10`); `Eaten` zeroes the
rabbit's max energy, so the tick-end `CleanUpDead` removes the rabbit
while depositing `0 · 3/10 = 0` fertilizer — the cell keeps fertilizer
5 instead of the claimed `5 + 10 · 3/10 = 8`. -/
theorem C7_counterexample :
    (wFR.creatures.getD 1 cDef).energyMax = 10 ∧
    wFR.deathThresh = 3/10 ∧
    wFR.terrain.fert 0 0 = 5 ∧
    ((EcoEat wFR ⟨0, 0⟩ 0).toOption.map (fun s =>
      (s.1.creatures.map Creature.dead,
        (CleanUpDead s.1).creatures.length,
        (CleanUpDead s.1).terrain.fert 0 0))) = some ([false, true], 1, 5) ∧
    ((5 : ℚ)) ≠ 5 + 10 * (3/10) := by
  decide

/-- C9 code bug: on the 1×1 ecosystem `wC9`, the coordinate `x = width`
passes the `_x > mnWidth` guard of `GetGrassVal` and `ConsumeGrass`
(`>` where `>=` was needed) and the following row access indexes one
past the end of the row vector — an out-of-bounds read, not the claimed
no-op zero.  The occupancy accessor `GetGridVal`, whose guard does use
`>=`, correctly returns its -1 sentinel at the same coordinate. -/
theorem C9_code_bug :
    wC9.terrain.w = 1 ∧
    (GetGrassVal wC9 1 0).toOption = none ∧
    ((ConsumeGrass wC9.terrain 1 0 1).toOption.map (fun p => p.2)) = none ∧
    (GetGrassVal wC9 2 0).toOption = some 0 ∧
    GetGridVal wC9 1 0 = -1 := by
  decide

/-- C10: `Creature::UpdateAwake(_dt)` returns immediately when
`_dt ≤ 0` (Creature.cpp line 314): no idle cost is charged, no death
flag set, no movement performed and no behaviour callback invoked — the
creature and the terrain are returned unchanged. -/
theorem C10_noop (dt : ℚ) (h : dt ≤ 0) (fsqrt : ℤ → ℚ)
    (beh : Creature × Terrain → Creature × Terrain)
    (c : Creature) (t : Terrain) :
    UpdateAwake fsqrt beh dt c t = (c, t) := by
  unfold UpdateAwake
  rw [if_pos h]

theorem C10_noop_witness :
    UpdateAwake (fun _ => 0) id 0 cDef tC1 = (cDef, tC1) :=
  C10_noop 0 (le_refl 0) (fun _ => 0) id cDef tC1

/-- Membership of `Clamp` in its interval. -/
theorem Clamp_mem (lo hi v : ℚ) (h : lo ≤ hi) :
    lo ≤ Clamp lo hi v ∧ Clamp lo hi v ≤ hi := by
  unfold Clamp
  split_ifs <;> constructor <;> linarith

/-- C8: whenever an energy operation would push the current energy above
max (`Creature::Eat` on a gain `v`) or below zero (`ConsumeEnergy` on a
cost `f`), the current energy is clamped to the valid bound and the
entire excess is deposited as fertilizer at the creature's cell. -/
theorem C8_capacity_clamp (c : Creature) (t : Terrain) (v f : ℚ)
    (hover : c.energyCur + v > c.energyMax)
    (hunder : f > c.energyCur)
    (hmax : 0 ≤ c.energyMax) :
    (eatClamp c t v).1.energyCur = c.energyMax ∧
    (eatClamp c t v).2.fert c.posY c.posX
      = t.fert c.posY c.posX + (c.energyCur + v - c.energyMax) ∧
    (ConsumeEnergy c t f).1.energyCur = 0 ∧
    (ConsumeEnergy c t f).2.1.fert c.posY c.posX
      = t.fert c.posY c.posX + (f - c.energyCur) := by
  have h1 : ¬ c.energyCur - f > c.energyMax := by linarith
  have h2 : c.energyCur - f < 0 := by linarith
  refine ⟨?_, ?_, ?_, ?_⟩
  · simp only [eatClamp]
    unfold Clamp
    rw [if_pos hover]
  · simp only [eatClamp, if_pos hover, ReturnEnergyToMap, upd2]
    simp
  · simp only [ConsumeEnergy]
    unfold Clamp
    rw [if_neg h1, if_pos h2]
  · simp only [ConsumeEnergy, if_pos hunder, ReturnEnergyToMap, upd2]
    simp

theorem C8_capacity_clamp_witness :
    (eatClamp cW8 tC1 7).1.energyCur = cW8.energyMax ∧
    (eatClamp cW8 tC1 7).2.fert cW8.posY cW8.posX
      = tC1.fert cW8.posY cW8.posX + (cW8.energyCur + 7 - cW8.energyMax) ∧
    (ConsumeEnergy cW8 tC1 9).1.energyCur = 0 ∧
    (ConsumeEnergy cW8 tC1 9).2.1.fert cW8.posY cW8.posX
      = tC1.fert cW8.posY cW8.posX + (9 - cW8.energyCur) :=
  C8_capacity_clamp cW8 tC1 7 9 (by decide) (by decide) (by decide)

/-- `cleanStep` leaves the state unchanged at an index holding a living
creature (or no creature). -/
theorem cleanStep_alive (w : EcoState) (j : ℕ)
    (h : ∀ d, w.creatures[j]? = some d → d.dead = false) :
    cleanStep w j = w := by
  unfold cleanStep
  cases hj : w.creatures[j]? with
  | none => rfl
  | some d => simp [h d hj]

/-- Folding `cleanStep` over indices of living creatures is the
identity. -/
theorem foldl_cleanStep_alive (l : List ℕ) (w : EcoState)
    (h : ∀ j ∈ l, ∀ d, w.creatures[j]? = some d → d.dead = false) :
    l.foldl cleanStep w = w := by
  induction l with
  | nil => rfl
  | cons a as ih =>
    have ha : cleanStep w a = w := cleanStep_alive w a (h a (by simp))
    simp only [List.foldl_cons, ha]
    exact ih (fun j hj => h j (by simp [hj]))

/-- C7 amended: tick-end removal deposits `energyMax-at-removal ×
deathThresh` of fertilizer at the death cell.  A starved creature keeps
its configured maximum, so its deposit is `maxEnergy × deathThresh`; a
creature consumed by a predator had both energies zeroed by
`Creature::Eaten`, so its removal deposits nothing. -/
theorem C7_death_deposit (w : EcoState) (cs : List Creature) (c : Creature)
    (hw : w.creatures = cs ++ [c])
    (halive : ∀ d ∈ cs, d.dead = false)
    (hdead : c.dead = true) :
    (CleanUpDead w).creatures = cs ∧
    (CleanUpDead w).terrain.fert c.posY c.posX
      = w.terrain.fert c.posY c.posX + c.energyMax * w.deathThresh ∧
    (∀ d : Creature, (Eaten d).1.energyMax = 0 ∧ (Eaten d).1.dead = true ∧
      (Eaten d).2 = d.energyCur) := by
  have hlen : w.creatures.length = cs.length + 1 := by simp [hw]
  have hgetc : w.creatures[cs.length]? = some c := by
    rw [hw]
    rw [List.getElem?_append_right (le_refl cs.length)]
    simp
  have hdrop : w.creatures.dropLast = cs := by
    rw [hw, List.dropLast_concat]
  -- the first (highest-index) step removes c ...
  have hcs : (cleanStep w cs.length).creatures = cs := by
    unfold cleanStep
    rw [hgetc]
    simp [hdead, hlen, hdrop]
  -- ... and deposits max-energy × deathThresh at its cell
  have hfert : (cleanStep w cs.length).terrain.fert c.posY c.posX
      = w.terrain.fert c.posY c.posX + c.energyMax * w.deathThresh := by
    unfold cleanStep
    rw [hgetc]
    simp [hdead, upd2]
  have hrange : (List.range w.creatures.length).reverse
      = cs.length :: (List.range cs.length).reverse := by
    rw [hlen, List.range_succ, List.reverse_append]
    simp
  have halive2 : ∀ j ∈ (List.range cs.length).reverse, ∀ d,
      (cleanStep w cs.length).creatures[j]? = some d → d.dead = false := by
    intro j hj d hd
    rw [hcs] at hd
    exact halive d (List.getElem?_mem hd)
  unfold CleanUpDead
  rw [hrange]
  simp only [List.foldl_cons]
  rw [foldl_cleanStep_alive _ _ halive2]
  exact ⟨hcs, hfert, fun d => ⟨rfl, rfl, rfl⟩⟩

theorem C7_death_deposit_witness :
    (CleanUpDead wStarve).creatures = [] ∧
    (CleanUpDead wStarve).terrain.fert 0 0 = wStarve.terrain.fert 0 0 +
      ({ mkC .rabbit 1 0 10 0 0 with dead := true } : Creature).energyMax *
        wStarve.deathThresh ∧
    (∀ d : Creature, (Eaten d).1.energyMax = 0 ∧ (Eaten d).1.dead = true ∧
      (Eaten d).2 = d.energyCur) :=
  C7_death_deposit wStarve [] ({ mkC .rabbit 1 0 10 0 0 with dead := true })
    (by decide) (by simp) (by decide)

theorem MinQ_le_left (a b : ℚ) : MinQ a b ≤ a := by
  unfold MinQ; split_ifs <;> linarith

theorem MinQ_nonneg (a b : ℚ) (ha : 0 ≤ a) (hb : 0 ≤ b) : 0 ≤ MinQ a b := by
  unfold MinQ; split_ifs <;> linarith

theorem Clamp_eq_self (lo hi v : ℚ) (h1 : lo ≤ v) (h2 : v ≤ hi) :
    Clamp lo hi v = v := by
  unfold Clamp; split_ifs <;> linarith

/-- Clamping `g + c` into `[0, M]` from inside the interval absorbs
exactly `min(c, M - g)`. -/
theorem Clamp_zero_add_min (M g c : ℚ) (hg0 : 0 ≤ g) (hgM : g ≤ M)
    (hc : 0 ≤ c) : Clamp 0 M (g + c) = g + MinQ c (M - g) := by
  unfold Clamp MinQ; split_ifs <;> linarith

theorem lowStep_mono (t : Terrain) (src : GridPos) (st : GridPos × Option ℚ)
    (off : ℤ × ℤ) (v : ℚ) (h : st.2 = some v) :
    ∃ u, (lowStep t src st off).2 = some u ∧ u ≤ v := by
  unfold lowStep
  dsimp only
  split_ifs with hb
  · rw [h]
    dsimp only
    split_ifs with hgv
    · exact ⟨_, rfl, le_of_lt hgv⟩
    · exact ⟨v, h, le_refl v⟩
  · exact ⟨v, h, le_refl v⟩

theorem foldl_lowStep_mono (t : Terrain) (src : GridPos)
    (l : List (ℤ × ℤ)) : ∀ (st : GridPos × Option ℚ) (v : ℚ),
    st.2 = some v →
    ∃ u, (l.foldl (lowStep t src) st).2 = some u ∧ u ≤ v := by
  induction l with
  | nil => intro st v h; exact ⟨v, h, le_refl v⟩
  | cons a as ih =>
    intro st v h
    obtain ⟨u1, hu1, hle1⟩ := lowStep_mono t src st a v h
    obtain ⟨u2, hu2, hle2⟩ := ih (lowStep t src st a) u1 hu1
    exact ⟨u2, hu2, le_trans hle2 hle1⟩

theorem lowStep_grassEq (t : Terrain) (src : GridPos)
    (st : GridPos × Option ℚ) (off : ℤ × ℤ)
    (h : ∀ v, st.2 = some v → v = t.grass st.1.y.toNat st.1.x.toNat) :
    ∀ v, (lowStep t src st off).2 = some v →
      v = t.grass (lowStep t src st off).1.y.toNat
        (lowStep t src st off).1.x.toNat := by
  unfold lowStep
  dsimp only
  split_ifs with hb
  · cases hst : st.2 with
    | none =>
      intro v hv
      exact (Option.some.inj hv).symm
    | some w =>
      dsimp only
      split_ifs with hgv
      · intro v hv
        exact (Option.some.inj hv).symm
      · exact h
  · exact h

theorem foldl_lowStep_grassEq (t : Terrain) (src : GridPos)
    (l : List (ℤ × ℤ)) : ∀ st : GridPos × Option ℚ,
    (∀ v, st.2 = some v → v = t.grass st.1.y.toNat st.1.x.toNat) →
    ∀ v, (l.foldl (lowStep t src) st).2 = some v →
      v = t.grass (l.foldl (lowStep t src) st).1.y.toNat
        (l.foldl (lowStep t src) st).1.x.toNat := by
  induction l with
  | nil => intro st h; exact h
  | cons a as ih =>
    intro st h
    exact ih (lowStep t src st a) (lowStep_grassEq t src st a h)

theorem lowStep_noneInv (t : Terrain) (src : GridPos)
    (st : GridPos × Option ℚ) (off : ℤ × ℤ)
    (h : st.2 = none → st.1 = (⟨-1, -1⟩ : GridPos)) :
    (lowStep t src st off).2 = none →
      (lowStep t src st off).1 = ⟨-1, -1⟩ := by
  unfold lowStep
  dsimp only
  split_ifs with hb
  · cases hst : st.2 with
    | none =>
      intro hv
      simp at hv
    | some w =>
      dsimp only
      split_ifs with hgv
      · intro hv
        simp at hv
      · exact h
  · exact h

theorem foldl_lowStep_noneInv (t : Terrain) (src : GridPos)
    (l : List (ℤ × ℤ)) : ∀ st : GridPos × Option ℚ,
    (st.2 = none → st.1 = (⟨-1, -1⟩ : GridPos)) →
    (l.foldl (lowStep t src) st).2 = none →
      (l.foldl (lowStep t src) st).1 = ⟨-1, -1⟩ := by
  induction l with
  | nil => intro st h; exact h
  | cons a as ih =>
    intro st h
    exact ih (lowStep t src st a) (lowStep_noneInv t src st a h)

theorem foldl_lowStep_le_visited (t : Terrain) (src : GridPos)
    (l : List (ℤ × ℤ)) : ∀ (st : GridPos × Option ℚ) (off : ℤ × ℤ),
    off ∈ l →
    (0 ≤ src.x + off.1 ∧ src.x + off.1 < (t.w : ℤ) ∧
      0 ≤ src.y + off.2 ∧ src.y + off.2 < (t.h : ℤ)) →
    ∃ u, (l.foldl (lowStep t src) st).2 = some u ∧
      u ≤ t.grass (src.y + off.2).toNat (src.x + off.1).toNat := by
  induction l with
  | nil => intro st off hoff; cases hoff
  | cons a as ih =>
    intro st off hoff hin
    rcases List.mem_cons.mp hoff with rfl | hmem
    · have hstep : ∃ u0, (lowStep t src st off).2 = some u0 ∧
          u0 ≤ t.grass (src.y + off.2).toNat (src.x + off.1).toNat := by
        unfold lowStep
        dsimp only
        rw [if_pos hin]
        cases hst : st.2 with
        | none => exact ⟨_, rfl, le_refl _⟩
        | some v =>
          dsimp only
          split_ifs with hgv
          · exact ⟨_, rfl, le_refl _⟩
          · exact ⟨v, hst, not_lt.mp hgv⟩
      obtain ⟨u0, hu0, hu0le⟩ := hstep
      obtain ⟨u, hu, hule⟩ := foldl_lowStep_mono t src as
        (lowStep t src st off) u0 hu0
      exact ⟨u, hu, le_trans hule hu0le⟩
    · exact ih (lowStep t src st a) off hmem hin

/-- `GetLowestGrass` minimality: whenever it returns a valid position,
that position's grass is the least among all in-bounds neighbours in
the visit order. -/
theorem GetLowestGrass_min (t : Terrain) (ord : List (ℤ × ℤ))
    (src : GridPos)
    (hvalid : ¬((GetLowestGrass t ord src).x < 0 ∨
      (GetLowestGrass t ord src).y < 0))
    (off : ℤ × ℤ) (hmem : off ∈ ord)
    (hin : 0 ≤ src.x + off.1 ∧ src.x + off.1 < (t.w : ℤ) ∧
      0 ≤ src.y + off.2 ∧ src.y + off.2 < (t.h : ℤ)) :
    t.grass (GetLowestGrass t ord src).y.toNat
        (GetLowestGrass t ord src).x.toNat
      ≤ t.grass (src.y + off.2).toNat (src.x + off.1).toNat := by
  obtain ⟨u, hu, hule⟩ :=
    foldl_lowStep_le_visited t src ord (⟨-1, -1⟩, none) off hmem hin
  have heq := foldl_lowStep_grassEq t src ord (⟨-1, -1⟩, none)
    (by intro v hv; cases hv) u hu
  unfold GetLowestGrass
  rw [← heq]
  exact hule

/-- C5 amended: during `Update`, a saturated cell's growth, scaled by
1/8, is offered to the least-grass in-bounds 8-neighbour `p` (whether or
not `p` is itself saturated); `p` absorbs it only up to its own
capacity, `min(growth/8, max_p - grass_p)`, while the cell's fertilizer
is debited the full `growth/8` — so the debit is at least the amount
absorbed, strictly more whenever the receiver clamps. -/
theorem C5_spill (t : Terrain) (dt : ℚ) (ord : ℕ → ℕ → List (ℤ × ℤ))
    (x y : ℕ) (p : GridPos)
    (hp : p = GetLowestGrass
      { t with fert := upd2 t.fert x y (fertAdvanced t dt x y) }
      (ord x y) ⟨(x : ℤ), (y : ℤ)⟩)
    (hsat : t.grass y x ≥ t.grassMax y x)
    (hvalid : ¬(p.x < 0 ∨ p.y < 0))
    (hfm0 : 0 ≤ t.fertMin y x) (hfmm : t.fertMin y x ≤ t.fertMax y x)
    (hrate : 0 ≤ t.grassRate y x * dt * t.grassMax y x)
    (hg0 : 0 ≤ t.grass p.y.toNat p.x.toNat)
    (hgm : t.grass p.y.toNat p.x.toNat ≤ t.grassMax p.y.toNat p.x.toNat) :
    (updateCell dt ord t (x, y)).grass p.y.toNat p.x.toNat
      = t.grass p.y.toNat p.x.toNat +
        MinQ (growth t dt x y / 8)
          (t.grassMax p.y.toNat p.x.toNat - t.grass p.y.toNat p.x.toNat) ∧
    (updateCell dt ord t (x, y)).fert y x
      = fertAdvanced t dt x y - growth t dt x y / 8 ∧
    MinQ (growth t dt x y / 8)
        (t.grassMax p.y.toNat p.x.toNat - t.grass p.y.toNat p.x.toNat)
      ≤ growth t dt x y / 8 ∧
    (∀ off ∈ ord x y,
      (0 ≤ (x : ℤ) + off.1 ∧ (x : ℤ) + off.1 < (t.w : ℤ) ∧
        0 ≤ (y : ℤ) + off.2 ∧ (y : ℤ) + off.2 < (t.h : ℤ)) →
      t.grass p.y.toNat p.x.toNat ≤
        t.grass ((y : ℤ) + off.2).toNat ((x : ℤ) + off.1).toNat) := by
  have hf1 := Clamp_mem (t.fertMin y x) (t.fertMax y x)
    (t.fert y x + t.fertRate y x * dt * t.fertMax y x) hfmm
  have hf10 : 0 ≤ fertAdvanced t dt x y := le_trans hfm0 hf1.1
  have hf1M : fertAdvanced t dt x y ≤ t.fertMax y x := hf1.2
  have hgr0 : 0 ≤ growth t dt x y := MinQ_nonneg _ _ hf10 hrate
  have hgrf : growth t dt x y ≤ fertAdvanced t dt x y := MinQ_le_left _ _
  have hc8 : 0 ≤ growth t dt x y / 8 := by positivity
  have hc8g : growth t dt x y / 8 ≤ growth t dt x y := by linarith
  have hcond : ({ t with
        fert := upd2 t.fert x y (fertAdvanced t dt x y) } : Terrain).grass y x
      ≥ ({ t with
        fert := upd2 t.fert x y (fertAdvanced t dt x y) } : Terrain).grassMax
        y x := hsat
  unfold updateCell
  rw [if_pos hcond, ← hp, if_neg hvalid]
  refine ⟨?_, ?_, MinQ_le_left _ _, ?_⟩
  · show upd2 t.grass p.x.toNat p.y.toNat
        (Clamp 0 (t.grassMax p.y.toNat p.x.toNat)
          (t.grass p.y.toNat p.x.toNat + growth t dt x y / 8))
        p.y.toNat p.x.toNat = _
    simp only [upd2, if_pos (And.intro rfl rfl)]
    exact Clamp_zero_add_min _ _ _ hg0 hgm hc8
  · show upd2 (upd2 t.fert x y (fertAdvanced t dt x y)) x y
        (Clamp 0 (t.fertMax y x)
          (upd2 t.fert x y (fertAdvanced t dt x y) y x - growth t dt x y / 8))
        y x = _
    simp only [upd2, if_pos (And.intro rfl rfl), and_self, if_true]
    exact Clamp_eq_self _ _ _ (by linarith) (by linarith)
  · intro off hmem hin
    have hmin := GetLowestGrass_min
      { t with fert := upd2 t.fert x y (fertAdvanced t dt x y) } (ord x y)
      ⟨(x : ℤ), (y : ℤ)⟩ (by rw [← hp]; exact hvalid) off hmem hin
    rw [← hp] at hmin
    exact hmin

theorem C5_spill_witness :
    ((0:ℚ) ≤ tC5.grass 0 1 ∧ tC5.grass 0 1 ≤ tC5.grassMax 0 1) ∧
    (updateCell 1 ordDefault tC5 (0, 0)).grass 0 1
      = tC5.grass 0 1 +
        MinQ (growth tC5 1 0 0 / 8) (tC5.grassMax 0 1 - tC5.grass 0 1) ∧
    (updateCell 1 ordDefault tC5 (0, 0)).fert 0 0
      = fertAdvanced tC5 1 0 0 - growth tC5 1 0 0 / 8 ∧
    MinQ (growth tC5 1 0 0 / 8) (tC5.grassMax 0 1 - tC5.grass 0 1)
      ≤ growth tC5 1 0 0 / 8 ∧
    (∀ off ∈ ordDefault 0 0,
      (0 ≤ (0 : ℤ) + off.1 ∧ (0 : ℤ) + off.1 < (tC5.w : ℤ) ∧
        0 ≤ (0 : ℤ) + off.2 ∧ (0 : ℤ) + off.2 < (tC5.h : ℤ)) →
      tC5.grass 0 1 ≤
        tC5.grass ((0 : ℤ) + off.2).toNat ((0 : ℤ) + off.1).toNat) := by
  refine ⟨by decide, ?_⟩
  exact C5_spill tC5 1 ordDefault 0 0 ⟨1, 0⟩ (by decide) (by decide)
    (by decide) (by decide) (by decide) (by decide) (by decide) (by decide)

theorem updateCell_w (dt : ℚ) (ord : ℕ → ℕ → List (ℤ × ℤ)) (t : Terrain)
    (c : ℕ × ℕ) : (updateCell dt ord t c).w = t.w := by
  unfold updateCell
  dsimp only
  split_ifs <;> rfl

theorem updateCell_h (dt : ℚ) (ord : ℕ → ℕ → List (ℤ × ℤ)) (t : Terrain)
    (c : ℕ × ℕ) : (updateCell dt ord t c).h = t.h := by
  unfold updateCell
  dsimp only
  split_ifs <;> rfl

theorem updateCell_fertMax (dt : ℚ) (ord : ℕ → ℕ → List (ℤ × ℤ))
    (t : Terrain) (c : ℕ × ℕ) :
    (updateCell dt ord t c).fertMax = t.fertMax := by
  unfold updateCell
  dsimp only
  split_ifs <;> rfl

theorem upd2_hit {α : Type} (f : ℕ → ℕ → α) (X Y : ℕ) (v : α) :
    upd2 f X Y v Y X = v := by
  simp [upd2]

theorem upd2_miss {α : Type} (f : ℕ → ℕ → α) (X Y : ℕ) (v : α) (y x : ℕ)
    (h : ¬ (y = Y ∧ x = X)) : upd2 f X Y v y x = f y x := by
  simp only [upd2, if_neg h]

/-- One `Update` step keeps every in-bounds cell's fertilizer state
well-formed. -/
theorem updateCell_fertWF (dt : ℚ) (ord : ℕ → ℕ → List (ℤ × ℤ))
    (t : Terrain) (c : ℕ × ℕ) (hcx : c.1 < t.w) (hcy : c.2 < t.h)
    (h : FertWF t) : FertWF (updateCell dt ord t c) := by
  obtain ⟨a, b⟩ := c
  have hab := h a b hcx hcy
  have hfmax0 : (0 : ℚ) ≤ t.fertMax b a := by linarith [hab.1]
  have hfmaxpos : (0 : ℚ) < t.fertMax b a := by linarith [hab.1]
  have hf1 := Clamp_mem (t.fertMin b a) (t.fertMax b a)
    (t.fert b a + t.fertRate b a * dt * t.fertMax b a) hab.2.2.1
  have hdivOK : ∀ v : ℚ, 0 ≤ v → v ≤ t.fertMax b a →
      0 ≤ v / t.fertMax b a ∧ v / t.fertMax b a ≤ t.fertMax b a := by
    intro v hv0 hvM
    refine ⟨div_nonneg hv0 hfmax0, ?_⟩
    rw [div_le_iff₀ hfmaxpos]
    nlinarith [hab.1]
  intro x y hx hy
  rw [updateCell_w] at hx
  rw [updateCell_h] at hy
  have hxy := h x y hx hy
  unfold updateCell
  dsimp only
  split_ifs with hs hv
  all_goals dsimp only
  -- `continue` branch: fertilizer set to the clamped advance at (a, b)
  · by_cases hc : y = b ∧ x = a
    · obtain ⟨rfl, rfl⟩ := hc
      refine ⟨hab.1, hab.2.1, hab.2.2.1, ?_, ?_⟩
      · rw [upd2_hit]
        exact le_trans hab.2.1 hf1.1
      · rw [upd2_hit]
        exact hf1.2
    · rw [upd2_miss _ _ _ _ _ _ hc]
      exact hxy
  -- spillover branch: fertilizer clamped into [0, max], min set to f/max
  · have hf2 := Clamp_mem 0 (t.fertMax b a)
      (fertAdvanced t dt a b - growth t dt a b / 8) hfmax0
    by_cases hc : y = b ∧ x = a
    · obtain ⟨rfl, rfl⟩ := hc
      simp only [upd2_hit]
      exact ⟨hab.1, (hdivOK _ hf2.1 hf2.2).1, (hdivOK _ hf2.1 hf2.2).2,
        hf2.1, hf2.2⟩
    · simp only [upd2_miss _ _ _ _ _ _ hc]
      exact hxy
  -- unsaturated branch: same clamping with the full growth amount
  · have hf2 := Clamp_mem 0 (t.fertMax b a)
      (fertAdvanced t dt a b - growth t dt a b) hfmax0
    by_cases hc : y = b ∧ x = a
    · obtain ⟨rfl, rfl⟩ := hc
      simp only [upd2_hit]
      exact ⟨hab.1, (hdivOK _ hf2.1 hf2.2).1, (hdivOK _ hf2.1 hf2.2).2,
        hf2.1, hf2.2⟩
    · simp only [upd2_miss _ _ _ _ _ _ hc]
      exact hxy

theorem foldl_updateCell_w (dt : ℚ) (ord : ℕ → ℕ → List (ℤ × ℤ))
    (l : List (ℕ × ℕ)) : ∀ t : Terrain,
    (l.foldl (updateCell dt ord) t).w = t.w := by
  induction l with
  | nil => intro t; rfl
  | cons a as ih =>
    intro t
    simp only [List.foldl_cons]
    rw [ih, updateCell_w]

theorem foldl_updateCell_h (dt : ℚ) (ord : ℕ → ℕ → List (ℤ × ℤ))
    (l : List (ℕ × ℕ)) : ∀ t : Terrain,
    (l.foldl (updateCell dt ord) t).h = t.h := by
  induction l with
  | nil => intro t; rfl
  | cons a as ih =>
    intro t
    simp only [List.foldl_cons]
    rw [ih, updateCell_h]

theorem foldl_updateCell_fertMax (dt : ℚ) (ord : ℕ → ℕ → List (ℤ × ℤ))
    (l : List (ℕ × ℕ)) : ∀ t : Terrain,
    (l.foldl (updateCell dt ord) t).fertMax = t.fertMax := by
  induction l with
  | nil => intro t; rfl
  | cons a as ih =>
    intro t
    simp only [List.foldl_cons]
    rw [ih, updateCell_fertMax]

theorem foldl_updateCell_fertWF (dt : ℚ) (ord : ℕ → ℕ → List (ℤ × ℤ))
    (l : List (ℕ × ℕ)) : ∀ t : Terrain,
    (∀ c ∈ l, c.1 < t.w ∧ c.2 < t.h) → FertWF t →
    FertWF (l.foldl (updateCell dt ord) t) := by
  induction l with
  | nil => intro t _ hwf; exact hwf
  | cons a as ih =>
    intro t hb hwf
    simp only [List.foldl_cons]
    refine ih _ ?_ ?_
    · intro c hc
      rw [updateCell_w, updateCell_h]
      exact hb c (by simp [hc])
    · exact updateCell_fertWF dt ord t a (hb a (by simp)).1
        (hb a (by simp)).2 hwf

theorem mem_cellsRowMajor (w h : ℕ) (c : ℕ × ℕ)
    (hc : c ∈ cellsRowMajor w h) : c.1 < w ∧ c.2 < h := by
  simp only [cellsRowMajor, List.mem_flatMap, List.mem_map,
    List.mem_range] at hc
  obtain ⟨y, hy, x, hx, rfl⟩ := hc
  exact ⟨hx, hy⟩

/-- C1 amended: after an in-bounds `ConsumeGrass` the cell's grass stays
within its configured `[min, max]`; after `Update` every cell's
fertilizer stays within `[0, max]` (for `Init`-well-formed fertilizer
data) — but grass is *not* clamped by `Update` and can exceed its
maximum (see the counterexample). -/
theorem C1_bounds (t : Terrain) (X Y : ℕ) (val : ℚ) (out : Terrain × ℚ)
    (hX : X < t.w) (hY : Y < t.h)
    (hmm : t.grassMin Y X ≤ t.grassMax Y X)
    (hok : ConsumeGrass t X Y val = .ok out)
    (dt : ℚ) (ord : ℕ → ℕ → List (ℤ × ℤ)) (hwf : FertWF t)
    (x y : ℕ) (hx : x < t.w) (hy : y < t.h) :
    (t.grassMin Y X ≤ out.1.grass Y X ∧ out.1.grass Y X ≤ t.grassMax Y X) ∧
    (0 ≤ (Update t dt ord).fert y x ∧
      (Update t dt ord).fert y x ≤ t.fertMax y x) := by
  constructor
  · have hg1 : ¬ (X > t.w ∨ Y > t.h) := by
      push_neg
      omega
    unfold ConsumeGrass at hok
    rw [if_neg hg1, if_pos ⟨hX, hY⟩] at hok
    simp only [Except.ok.injEq] at hok
    rw [← hok]
    dsimp only [upd2]
    rw [if_pos ⟨rfl, rfl⟩]
    exact Clamp_mem _ _ _ hmm
  · have hwf2 := foldl_updateCell_fertWF dt ord (cellsRowMajor t.w t.h) t
      (fun c hc => mem_cellsRowMajor t.w t.h c hc) hwf
    have hx2 : x < (Update t dt ord).w := by
      unfold Update
      rw [foldl_updateCell_w]
      exact hx
    have hy2 : y < (Update t dt ord).h := by
      unfold Update
      rw [foldl_updateCell_h]
      exact hy
    have := hwf2 x y hx2 hy2
    have hfm : (Update t dt ord).fertMax = t.fertMax := by
      unfold Update
      exact foldl_updateCell_fertMax dt ord _ t
    refine ⟨this.2.2.2.1, ?_⟩
    rw [← hfm]
    exact this.2.2.2.2

theorem C1_bounds_witness :
    (tC1.grassMin 0 0 ≤ cgC1.1.grass 0 0 ∧
      cgC1.1.grass 0 0 ≤ tC1.grassMax 0 0) ∧
    (0 ≤ (Update tC1 1 ordDefault).fert 0 0 ∧
      (Update tC1 1 ordDefault).fert 0 0 ≤ tC1.fertMax 0 0) :=
  C1_bounds tC1 0 0 (1/2) cgC1 (by decide) (by decide) (by decide)
    rfl 1 ordDefault
    (by
      intro x y hx hy
      simp only [tC1, baseT] at hx hy
      interval_cases x
      interval_cases y
      refine ⟨by decide, by decide, by decide, by decide, by decide⟩)
    0 0 (by decide) (by decide)

/-- Evaluation of `EcoSystem::Eat` at an in-range cell occupied by a
creature other than the predator: the rabbit-cannot-eat-fox test, then
the size-dominance test, with grass consumption as the fallback. -/
theorem EcoEat_occupied (w : EcoState) (p : GridPos) (pi oi : ℕ)
    (pred occ : Creature)
    (hpred : w.creatures[pi]? = some pred)
    (hoi : w.terrain.space p.y.toNat p.x.toNat = (oi : ℤ))
    (hocc : w.creatures[oi]? = some occ)
    (hne : oi ≠ pi)
    (hdist : sqrtGtThreeHalves
      ((p.x - (pred.posX : ℤ)) * (p.x - (pred.posX : ℤ)) +
       (p.y - (pred.posY : ℤ)) * (p.y - (pred.posY : ℤ))) = false) :
    EcoEat w p pi =
      if occ.species = .fox ∧ pred.species = .rabbit then
        (match ConsumeGrass w.terrain p.x.toNat p.y.toNat 1 with
          | .error e => .error e
          | .ok tr => .ok ({ w with terrain := tr.1 }, tr.2))
      else if occ.size < 12/10 * pred.size then
        .ok ({ w with creatures := w.creatures.set oi (Eaten occ).1 },
          (Eaten occ).2)
      else
        (match ConsumeGrass w.terrain p.x.toNat p.y.toNat 1 with
          | .error e => .error e
          | .ok tr => .ok ({ w with terrain := tr.1 }, tr.2)) := by
  have hlen : oi < w.creatures.length := by
    by_contra hcon
    rw [List.getElem?_eq_none (by omega)] at hocc
    cases hocc
  have hget : w.creatures[oi] = occ := by
    rw [List.getElem?_eq_getElem hlen] at hocc
    exact Option.some.inj hocc
  unfold EcoEat
  rw [hpred]
  dsimp only
  rw [hdist]
  simp only [Bool.false_eq_true, if_false]
  simp only [hoi, Int.toNat_natCast]
  rw [dif_pos (And.intro (Int.natCast_nonneg oi) hlen)]
  dsimp only
  rw [if_neg hne]
  simp only [List.get_eq_getElem, hget]

/-- C6 amended: when a predator eats at an in-bounds cell within reach
that is occupied by another creature, the occupant is consumed if and
only if its size is below `1.2 ×` the eater's size *and* the pairing is
not rabbit-eats-fox (a rabbit can never consume a fox); any failed
attempt degrades to consuming grass at the cell.  Self-consumption
degrades to eating grass only for a non-fox: a fox eating at its own
occupied cell returns zero energy without touching the grass. -/
theorem C6_size_dominance (w : EcoState) (p : GridPos) (pi oi : ℕ)
    (pred occ : Creature)
    (hpred : w.creatures[pi]? = some pred)
    (hoi : w.terrain.space p.y.toNat p.x.toNat = (oi : ℤ))
    (hocc : w.creatures[oi]? = some occ)
    (hne : oi ≠ pi)
    (hdist : sqrtGtThreeHalves
      ((p.x - (pred.posX : ℤ)) * (p.x - (pred.posX : ℤ)) +
       (p.y - (pred.posY : ℤ)) * (p.y - (pred.posY : ℤ))) = false)
    (hpx : p.x.toNat < w.terrain.w) (hpy : p.y.toNat < w.terrain.h)
    (halive : occ.dead = false) :
    ((∃ s, EcoEat w p pi = .ok s ∧
        s.1.creatures[oi]? = some (Eaten occ).1 ∧ s.2 = occ.energyCur)
      ↔ (occ.size < 12/10 * pred.size ∧
         ¬(occ.species = .fox ∧ pred.species = .rabbit))) ∧
    (¬(occ.size < 12/10 * pred.size ∧
       ¬(occ.species = .fox ∧ pred.species = .rabbit)) →
      (EcoEat w p pi).toOption.map (fun s => s.2) =
        (ConsumeGrass w.terrain p.x.toNat p.y.toNat 1).toOption.map
          (fun tr => tr.2)) := by
  have hlen : oi < w.creatures.length := by
    by_contra hcon
    rw [List.getElem?_eq_none (by omega)] at hocc
    cases hocc
  obtain ⟨tr, htr⟩ : ∃ tr, ConsumeGrass w.terrain p.x.toNat p.y.toNat 1
      = .ok tr := by
    unfold ConsumeGrass
    rw [if_neg (by omega), if_pos ⟨hpx, hpy⟩]
    exact ⟨_, rfl⟩
  have hE := EcoEat_occupied w p pi oi pred occ hpred hoi hocc hne hdist
  rw [htr] at hE
  have hEatenNe : some (Eaten occ).1 ≠ some occ := by
    intro hcon
    have := congrArg Creature.dead (Option.some.inj hcon)
    rw [halive] at this
    cases this
  by_cases csp : occ.species = .fox ∧ pred.species = .rabbit
  · rw [if_pos csp] at hE
    constructor
    · constructor
      · rintro ⟨s, hs, hsocc, _⟩
        rw [hE] at hs
        obtain rfl := (Except.ok.inj hs).symm
        rw [hocc] at hsocc
        exact absurd hsocc.symm hEatenNe
      · rintro ⟨_, hno⟩
        exact absurd csp hno
    · intro _
      rw [hE, htr]
      rfl
  · rw [if_neg csp] at hE
    by_cases csz : occ.size < 12/10 * pred.size
    · rw [if_pos csz] at hE
      constructor
      · constructor
        · intro _
          exact ⟨csz, csp⟩
        · intro _
          refine ⟨_, hE, ?_, rfl⟩
          exact List.getElem?_set_eq hlen
      · intro hcon
        exact absurd ⟨csz, csp⟩ hcon
    · rw [if_neg csz] at hE
      constructor
      · constructor
        · rintro ⟨s, hs, hsocc, _⟩
          rw [hE] at hs
          obtain rfl := (Except.ok.inj hs).symm
          rw [hocc] at hsocc
          exact absurd hsocc.symm hEatenNe
        · rintro ⟨hsz, _⟩
          exact absurd hsz csz
      · intro _
        rw [hE, htr]
        rfl

theorem C6_size_dominance_witness :
    ((∃ s, EcoEat wRF ⟨0, 0⟩ 0 = .ok s ∧
        s.1.creatures[1]? = some (Eaten (mkC .fox (1/2) 4 10 0 0)).1 ∧
        s.2 = (mkC .fox (1/2) 4 10 0 0).energyCur)
      ↔ ((mkC .fox (1/2) 4 10 0 0).size <
          12/10 * (mkC .rabbit 1 3 10 0 0).size ∧
         ¬((mkC .fox (1/2) 4 10 0 0).species = .fox ∧
           (mkC .rabbit 1 3 10 0 0).species = .rabbit))) ∧
    (¬((mkC .fox (1/2) 4 10 0 0).size <
          12/10 * (mkC .rabbit 1 3 10 0 0).size ∧
       ¬((mkC .fox (1/2) 4 10 0 0).species = .fox ∧
         (mkC .rabbit 1 3 10 0 0).species = .rabbit)) →
      (EcoEat wRF ⟨0, 0⟩ 0).toOption.map (fun s => s.2) =
        (ConsumeGrass wRF.terrain 0 0 1).toOption.map (fun tr => tr.2)) :=
  C6_size_dominance wRF ⟨0, 0⟩ 0 1 (mkC .rabbit 1 3 10 0 0)
    (mkC .fox (1/2) 4 10 0 0) (by decide) (by decide) (by decide)
    (by decide) (by decide) (by decide) (by decide) (by decide)

end Ecosystem
